import Mathlib

/-!
Verification of the Gemini computer-use streaming engine of the `surf`
repository (`src/lib/streaming/google.ts`, `src/types/google.ts`).

The engine is shallowly embedded: the agent loop of
`GoogleComputerStreamer.stream` is modelled as a computable function that
produces the ordered trace of observable steps of one run (emitted SSE
events, model calls, remote-desktop calls, awaited timeouts, conversation
appends).  External collaborators are modelled as oracles:

* `model : ℕ → Except String ModelResponse` — the outcome of the i-th
  `generateContent` call (`Except.error msg` models the call throwing an
  `Error` with message `msg`);
* `desktop : RemoteCall → Option String` — the remote-input capability
  (`some msg` models the E2B desktop call throwing);
* `aborted : ℕ → Bool` — the cancellation signal as sampled by the
  `signal.aborted` check at the top of iteration i.

JavaScript numbers appearing in coordinate arithmetic are modelled as exact
rationals with `round = ⌊· + 1/2⌋` (which agrees with `Math.round`);
all quantities in the claims keep the computation far enough from
half-integer boundaries that double rounding cannot change any result.
-/

namespace Surf

/-- Scroll direction strings of the Gemini action payload. -/
inductive Direction
  | up | down | left | right
deriving DecidableEq, Repr

/-- Canonical Gemini computer actions, from `src/types/google.ts`.
The TypeScript union is duck-typed records `{name, args}`; the embedding is
the corresponding tagged union.  `unknown` stands for any name outside the
declared set (the `default` branches of the switches). -/
inductive GeminiComputerAction
  | open_web_browser
  | wait_5_seconds
  | go_back
  | go_forward
  | search
  | navigate (url : String)
  | click_at (x y : ℕ)
  | hover_at (x y : ℕ)
  | type_text_at (x y : ℕ) (text : String)
      (press_enter clear_before_typing : Option Bool)
  | key_combination (keys : String)
  | scroll_document (direction : Direction)
  | scroll_at (x y : ℕ) (direction : Direction) (magnitude : Option ℕ)
  | drag_and_drop (x y destination_x destination_y : ℕ)
  | unknown (rawName : String)
deriving DecidableEq, Repr

/-- The `name` string of an action record. -/
def GeminiComputerAction.name : GeminiComputerAction → String
  | .open_web_browser => "open_web_browser"
  | .wait_5_seconds => "wait_5_seconds"
  | .go_back => "go_back"
  | .go_forward => "go_forward"
  | .search => "search"
  | .navigate _ => "navigate"
  | .click_at _ _ => "click_at"
  | .hover_at _ _ => "hover_at"
  | .type_text_at _ _ _ _ _ => "type_text_at"
  | .key_combination _ => "key_combination"
  | .scroll_document _ => "scroll_document"
  | .scroll_at _ _ _ _ => "scroll_at"
  | .drag_and_drop _ _ _ _ => "drag_and_drop"
  | .unknown n => n

/-- Function `denormalizeX` from `src/types/google.ts`:
`Math.round((x / 1000) * screenWidth)`.  No clamping is performed. -/
def denormalizeX (x screenWidth : ℕ) : ℤ :=
  round ((x : ℚ) / 1000 * screenWidth)

/-- Function `denormalizeY` from `src/types/google.ts`:
`Math.round((y / 1000) * screenHeight)`.  No clamping is performed. -/
def denormalizeY (y screenHeight : ℕ) : ℤ :=
  round ((y : ℚ) / 1000 * screenHeight)

/-- Function `getActionSettleDelay` from `src/lib/streaming/google.ts`.  Note the
`type_text_at` case tests JavaScript truthiness of `action.args.press_enter`
(`press_enter ? 3000 : text.length * 50`): an absent `press_enter` is falsy,
so only an explicit `true` selects the flat 3000 ms delay. -/
def getActionSettleDelay : GeminiComputerAction → ℕ
  | .click_at _ _ => 400
  | .hover_at _ _ => 400
  | .type_text_at _ _ text press_enter _ =>
      if press_enter = some true then 3000 else text.length * 50
  | .key_combination _ => 300
  | .scroll_document _ => 200
  | .scroll_at _ _ _ _ => 200
  | .drag_and_drop _ _ _ _ => 300
  | .navigate _ => 800
  | _ => 300

/-- Primitive operations of the E2B desktop capability invoked by
`executeAction`. -/
inductive RemoteCall
  | leftClick (x y : ℤ)
  | moveMouse (x y : ℤ)
  | press (keys : String)
  | write (text : String)
  | scroll (direction : Direction) (amount : ℤ)
  | drag (startX startY endX endY : ℤ)
deriving DecidableEq, Repr

/-- SSE events of the google streamer (the subset of `SSEEventType` it
emits).  `done`'s optional content mirrors the optional `content` field. -/
inductive SSEEvent
  | reasoning (content : String)
  | action (action : GeminiComputerAction)
  | action_completed
  | error (content : String)
  | done (content : Option String)
deriving DecidableEq, Repr

/-- A raw `functionCall` part as received from the model: `name` and `args`
may each be absent.  When both are present the typed action they form is
recorded directly (the TypeScript code casts `{name, args}` to
`GeminiComputerAction`). -/
structure RawFunctionCall where
  name : Option String
  args : Option GeminiComputerAction
deriving DecidableEq, Repr

/-- A content part of a model candidate: a text part, a function-call part,
or anything else (filtered out by both `filter(part.text)` and
`filter(part.functionCall)`). -/
inductive Part
  | text (s : String)
  | functionCall (call : RawFunctionCall)
  | other
deriving DecidableEq, Repr

/-- Candidate content; its `parts` may be absent (`!content?.parts` guard). -/
structure Content where
  parts : Option (List Part)
deriving DecidableEq, Repr

/-- A response candidate; its `content` may be absent. -/
structure Candidate where
  content : Option Content
deriving DecidableEq, Repr

/-- A `generateContent` response.  A null response or a missing candidates
array is modelled as the empty candidate list (the code guards
`!response?.candidates || response.candidates.length === 0` uniformly). -/
structure ModelResponse where
  candidates : List Candidate
deriving DecidableEq, Repr

/-- A chat message from the request's history. -/
structure Message where
  role : String
  content : String
deriving DecidableEq, Repr

/-- Items appended to the `contents` conversation list.  Screenshot image
bytes are elided as opaque markers; `functionResponses` records the `name`
fields of the function-response entries (`part.functionCall.name`, possibly
undefined) of the user turn that also carries the fresh screenshot. -/
inductive ContentItem
  | message (role text : String)
  | initialScreenshot
  | modelContent (parts : List Part)
  | functionResponses (names : List (Option String))
deriving DecidableEq, Repr

/-- One observable step of a run: an emitted SSE event, a `generateContent`
call (tagged with its iteration number), a remote-desktop call, an awaited
timeout, a screenshot capture, a conversation append, or a `logWarning`
call. -/
inductive Step
  | emit (e : SSEEvent)
  | modelCall (iteration : ℕ)
  | remoteCall (c : RemoteCall)
  | sleep (ms : ℕ)
  | screenshot
  | pushContent (item : ContentItem)
  | warn
deriving DecidableEq, Repr

/-- The event a step emits, if any. -/
def Step.emittedEvent : Step → Option SSEEvent
  | .emit e => some e
  | _ => none

/-- The milliseconds a step sleeps, if it is a timeout. -/
def Step.sleepMs : Step → Option ℕ
  | .sleep ms => some ms
  | _ => none

/-- The remote-desktop call of a step, if any. -/
def Step.remoteOf : Step → Option RemoteCall
  | .remoteCall c => some c
  | _ => none

/-- Whether a step is a `generateContent` call. -/
def Step.isModelCall : Step → Bool
  | .modelCall _ => true
  | _ => false

/-- The SSE events of a trace, in order. -/
def events (tr : List Step) : List SSEEvent :=
  tr.filterMap Step.emittedEvent

/-- The awaited timeouts of a trace, in order. -/
def sleepsOf (tr : List Step) : List ℕ :=
  tr.filterMap Step.sleepMs

/-- The remote-desktop calls of a trace, in order. -/
def remoteCallsOf (tr : List Step) : List RemoteCall :=
  tr.filterMap Step.remoteOf

/-- The number of `generateContent` calls of a trace. -/
def modelCallCount (tr : List Step) : ℕ :=
  (tr.filter Step.isModelCall).length

/-- Whether an event is an `error` event. -/
def SSEEvent.isError : SSEEvent → Bool
  | .error _ => true
  | _ => false

/-- Whether an event is a `done` event. -/
def SSEEvent.isDone : SSEEvent → Bool
  | .done _ => true
  | _ => false

/-- Performs a list of remote-desktop calls in order against the desktop
oracle, stopping at the first one that throws.  Returns the steps of the
calls that were performed and either the (unchanged) current URL or the
thrown message. -/
def runCalls (desktop : RemoteCall → Option String) (url : String) :
    List RemoteCall → List Step × Except String String
  | [] => ([], Except.ok url)
  | c :: cs =>
    match desktop c with
    | some msg => ([], Except.error msg)
    | none =>
      let (steps, r) := runCalls desktop url cs
      (Step.remoteCall c :: steps, r)

/-- The `scroll_at` magnitude: `action.args.magnitude || 800` (JavaScript
truthiness, so an explicit 0 is also replaced by 800), rescaled by
`Math.round((magnitude / 1000) * 500)`. -/
def scrollAtMagnitude (mag : Option ℕ) : ℤ :=
  let magnitude : ℕ := match mag with
    | none => 800
    | some m => if m = 0 then 800 else m
  round ((magnitude : ℚ) / 1000 * 500)

/-- Function `executeAction` from `src/lib/streaming/google.ts`, as a trace
semantics.  Given the desktop oracle, the native resolution
(`resolutionScaler.getOriginalResolution()`) and the current value of
`this.currentUrl`, it returns the performed steps and either the updated
`currentUrl` or the message of the rethrown error.  Notes kept from the
source: `type_text_at` clears iff `clear_before_typing !== false` and
presses Enter iff `press_enter !== false`; `scroll_at` always left-clicks
first to focus; its magnitude defaults via `magnitude || 800` (so an
explicit 0 is also replaced by 800) and is rescaled by
`Math.round((magnitude / 1000) * 500)`; horizontal scroll directions only
log a warning. -/
def execAction (desktop : RemoteCall → Option String) (res : ℕ × ℕ)
    (url : String) : GeminiComputerAction → List Step × Except String String
  | .open_web_browser => ([], Except.ok "about:blank")
  | .wait_5_seconds => ([Step.sleep 5000], Except.ok url)
  | .go_back => ([Step.warn], Except.ok url)
  | .go_forward => ([Step.warn], Except.ok url)
  | .search => ([Step.warn], Except.ok url)
  | .navigate u => ([], Except.ok u)
  | .click_at x y =>
      runCalls desktop url
        [RemoteCall.leftClick (denormalizeX x res.1) (denormalizeY y res.2)]
  | .hover_at x y =>
      runCalls desktop url
        [RemoteCall.moveMouse (denormalizeX x res.1) (denormalizeY y res.2)]
  | .type_text_at x y text press_enter clear_before_typing =>
      runCalls desktop url
        (RemoteCall.leftClick (denormalizeX x res.1) (denormalizeY y res.2) ::
          (if clear_before_typing ≠ some false then
            [RemoteCall.press "Control+a", RemoteCall.press "Backspace"]
          else []) ++
          [RemoteCall.write text] ++
          (if press_enter ≠ some false then [RemoteCall.press "Enter"] else []))
  | .key_combination keys => runCalls desktop url [RemoteCall.press keys]
  | .scroll_document d =>
      if d = Direction.up ∨ d = Direction.down then
        runCalls desktop url [RemoteCall.scroll d 500]
      else ([Step.warn], Except.ok url)
  | .scroll_at x y d mag =>
      match runCalls desktop url
          [RemoteCall.leftClick (denormalizeX x res.1) (denormalizeY y res.2)] with
      | (steps, Except.error msg) => (steps, Except.error msg)
      | (steps, Except.ok url1) =>
        if d = Direction.up ∨ d = Direction.down then
          let (steps2, r) :=
            runCalls desktop url1 [RemoteCall.scroll d (scrollAtMagnitude mag)]
          (steps ++ steps2, r)
        else (steps ++ [Step.warn], Except.ok url1)
  | .drag_and_drop x y dx dy =>
      runCalls desktop url
        [RemoteCall.drag (denormalizeX x res.1) (denormalizeY y res.2)
          (denormalizeX dx res.1) (denormalizeY dy res.2)]
  | .unknown _ => ([Step.warn], Except.ok url)

/-- JavaScript truthiness of an optional string (`undefined` and `""` are
falsy). -/
def nameFalsy : Option String → Bool
  | none => true
  | some s => s = ""

/-- The `!name || !args` guard that skips a function call. -/
def RawFunctionCall.malformed (rc : RawFunctionCall) : Bool :=
  nameFalsy rc.name || rc.args.isNone

/-- The `for (const part of functionCalls)` loop of `stream`: skips
malformed calls with a warning, otherwise yields the `action` event,
executes, and on success yields `action_completed` and records the action in
`executedActions`.  Returns `(steps, executedActions, currentUrl, thrown)`;
a throw from `executeAction` aborts the remaining calls. -/
def processCalls (desktop : RemoteCall → Option String) (res : ℕ × ℕ) :
    List RawFunctionCall → String →
    List Step × List GeminiComputerAction × String × Option String
  | [], url => ([], [], url, none)
  | rc :: rest, url =>
    if rc.malformed then
      let (steps, acts, url', err) := processCalls desktop res rest url
      (Step.warn :: steps, acts, url', err)
    else
      let action := rc.args.getD (GeminiComputerAction.unknown "")
      match execAction desktop res url action with
      | (execSteps, Except.error msg) =>
          (Step.emit (SSEEvent.action action) :: execSteps, [], url, some msg)
      | (execSteps, Except.ok url') =>
          let (steps, acts, url'', err) := processCalls desktop res rest url'
          (Step.emit (SSEEvent.action action) ::
              (execSteps ++ Step.emit SSEEvent.action_completed :: steps),
            action :: acts, url'', err)

/-- The text of a part when it is truthy (a nonempty string), as selected by
`parts.filter((part) => part.text)`. -/
def Part.textOf : Part → Option String
  | .text s => if s = "" then none else some s
  | _ => none

/-- The raw function call of a part, as selected by
`parts.filter((part) => part.functionCall)`. -/
def Part.callOf : Part → Option RawFunctionCall
  | .functionCall rc => some rc
  | _ => none

/-- JavaScript truthiness of `reasoningText.trim()`: the string contains a
non-whitespace character. -/
def hasVisibleText (s : String) : Bool :=
  s.data.any fun c => !c.isWhitespace

/-- The reasoning-extraction steps of one iteration: the text parts are the
truthy `part.text` fields; if there is at least one and the joined text has
a truthy `trim()`, a single `reasoning` event is emitted. -/
def reasoningStepsOf (parts : List Part) : List Step :=
  let textParts := parts.filterMap Part.textOf
  let reasoningText := String.join textParts
  if 0 < textParts.length ∧ hasVisibleText reasoningText then
    [Step.emit (SSEEvent.reasoning reasoningText)]
  else []

/-- The post-execution steps of one iteration: the single settle sleep for
the maximum `getActionSettleDelay` over the executed actions (skipped when
none executed), the screenshot recapture, the model turn appended to
`contents`, and the function-response user turn (one entry per function
call, carrying `part.functionCall.name` and the current URL, plus the fresh
screenshot). -/
def postStepsOf (parts : List Part) (functionCalls : List RawFunctionCall)
    (executed : List GeminiComputerAction) : List Step :=
  (if executed.isEmpty then []
    else [Step.sleep ((executed.map getActionSettleDelay).foldl Nat.max 0)]) ++
  [Step.screenshot,
    Step.pushContent (ContentItem.modelContent parts),
    Step.pushContent (ContentItem.functionResponses
      (functionCalls.map RawFunctionCall.name))]

/-- How the `while` loop of `stream` ends: normally (with the final value of
`iterationCount`) or by an exception propagating to the `catch` block. -/
inductive LoopExit
  | normal (iterationCount : ℕ)
  | thrown (msg : String)
deriving DecidableEq, Repr

/-- The `while (continueLoop && iterationCount < MAX_ITERATIONS)` loop of
`stream`, by recursion on the remaining iteration budget
(`fuel = MAX_ITERATIONS - iterationCount`; `continueLoop` is never set to
`false` in the source, so the loop only ends via `break` or the counter).
Returns the steps of the loop body and how the loop ended. -/
def streamLoop (model : ℕ → Except String ModelResponse)
    (desktop : RemoteCall → Option String) (aborted : ℕ → Bool)
    (res : ℕ × ℕ) : ℕ → ℕ → String → List Step × LoopExit
  | 0, n, _ => ([], LoopExit.normal n)
  | fuel + 1, n, url =>
    if aborted (n + 1) then
      ([Step.emit (SSEEvent.done (some "Generation stopped by user"))],
        LoopExit.normal (n + 1))
    else
      match model (n + 1) with
      | Except.error msg => ([Step.modelCall (n + 1)], LoopExit.thrown msg)
      | Except.ok resp =>
        match resp.candidates with
        | [] =>
            ([Step.modelCall (n + 1),
              Step.emit (SSEEvent.done (some "No response from model"))],
              LoopExit.normal (n + 1))
        | candidate :: _ =>
          match candidate.content with
          | none =>
              ([Step.modelCall (n + 1),
                Step.emit (SSEEvent.done (some "Empty response from model"))],
                LoopExit.normal (n + 1))
          | some content =>
            match content.parts with
            | none =>
                ([Step.modelCall (n + 1),
                  Step.emit (SSEEvent.done (some "Empty response from model"))],
                  LoopExit.normal (n + 1))
            | some parts =>
              match parts.filterMap Part.callOf with
              | [] =>
                  (Step.modelCall (n + 1) ::
                      (reasoningStepsOf parts ++ [Step.emit (SSEEvent.done none)]),
                    LoopExit.normal (n + 1))
              | fc :: fcs =>
                match processCalls desktop res (fc :: fcs) url with
                | (procSteps, _, _, some msg) =>
                    (Step.modelCall (n + 1) ::
                        (reasoningStepsOf parts ++ procSteps),
                      LoopExit.thrown msg)
                | (procSteps, executed, url', none) =>
                  let (rest, exit) :=
                    streamLoop model desktop aborted res fuel (n + 1) url'
                  (Step.modelCall (n + 1) ::
                      (reasoningStepsOf parts ++ procSteps ++
                        postStepsOf parts (fc :: fcs) executed ++ rest), exit)

/-- Constant `MAX_ITERATIONS` from `stream`. -/
def MAX_ITERATIONS : ℕ := 50

/-- The `content` of the iteration-limit error event. -/
def limitContent : String :=
  "Maximum iteration limit reached. Task may be too complex."

/-- The `content` of the quota error event. -/
def quotaContent : String :=
  "Gemini API quota exceeded. Please try again later or use your own API key."

/-- The `content` of the invalid-API-key error event. -/
def authContent : String :=
  "Invalid Gemini API key. Please check your GEMINI_API_KEY."

/-- JavaScript `s.includes(pat)` over the characters of the strings. -/
def charsHaveLead : List Char → List Char → Bool
  | [], _ => true
  | _ :: _, [] => false
  | a :: as, b :: bs => a = b && charsHaveLead as bs

/-- Whether `pat` occurs as a contiguous run of `s`. -/
def charsContain (pat : List Char) : List Char → Bool
  | [] => pat.isEmpty
  | c :: rest => charsHaveLead pat (c :: rest) || charsContain pat rest

/-- JavaScript `String.prototype.includes`. -/
def jsIncludes (s pat : String) : Bool :=
  charsContain pat.data s.data

/-- The quota-marker test of the `catch` block:
`message.includes("quota") || message.includes("429") ||
message.includes("RESOURCE_EXHAUSTED")`. -/
def hasQuotaMarker (msg : String) : Bool :=
  jsIncludes msg "quota" || jsIncludes msg "429" ||
    jsIncludes msg "RESOURCE_EXHAUSTED"

/-- The API-key-marker test of the `catch` block:
`message.includes("API key") || message.includes("API_KEY")`. -/
def hasKeyMarker (msg : String) : Bool :=
  jsIncludes msg "API key" || jsIncludes msg "API_KEY"

/-- The error classification of the `catch` block of `stream` (for thrown
`Error` values): quota markers first, then API-key markers, else the generic
`Error: ...` message. -/
def geminiErrorContent (msg : String) : String :=
  if hasQuotaMarker msg then quotaContent
  else if hasKeyMarker msg then authContent
  else "Error: " ++ msg

/-- The pre-loop part of `stream`: the initial screenshot capture, the chat
history pushed onto `contents`, and the user turn carrying the initial
screenshot. -/
def initSteps (messages : List Message) : List Step :=
  Step.screenshot ::
    ((messages.map fun m =>
      Step.pushContent (ContentItem.message
        (if m.role = "user" then "user" else "model") m.content)) ++
    [Step.pushContent ContentItem.initialScreenshot])

/-- The full `stream` generator of `GoogleComputerStreamer` as a trace: the
initial screenshot and conversation build-up, the agent loop, the
iteration-limit check, the unconditional trailing `done`, and the `catch`
block that classifies a thrown error and then also yields `done`.
`this.currentUrl` starts at `"about:blank"` (its value on a freshly
constructed streamer). -/
def stream (model : ℕ → Except String ModelResponse)
    (desktop : RemoteCall → Option String) (aborted : ℕ → Bool)
    (res : ℕ × ℕ) (messages : List Message) : List Step :=
  match streamLoop model desktop aborted res MAX_ITERATIONS 0 "about:blank" with
  | (body, LoopExit.normal n) =>
      initSteps messages ++ body ++
        (if MAX_ITERATIONS ≤ n then [Step.emit (SSEEvent.error limitContent)]
          else []) ++
        [Step.emit (SSEEvent.done none)]
  | (body, LoopExit.thrown msg) =>
      initSteps messages ++ body ++
        [Step.emit (SSEEvent.error (geminiErrorContent msg)),
          Step.emit (SSEEvent.done none)]

/-- The never-failing desktop oracle (every remote call succeeds). -/
def desktop0 : RemoteCall → Option String := fun _ => none

/-- The never-set cancellation signal. -/
def neverAborted : ℕ → Bool := fun _ => false

/-- A response with a single candidate carrying the given parts. -/
def respOfParts (ps : List Part) : ModelResponse :=
  ⟨[⟨some ⟨some ps⟩⟩]⟩

/-- Whether a model-call outcome is a successful response that proposes at
least one function call (so the iteration neither breaks nor throws). -/
def alwaysActing : Except String ModelResponse → Bool
  | Except.error _ => false
  | Except.ok resp =>
    match resp.candidates with
    | [] => false
    | c :: _ =>
      match c.content with
      | none => false
      | some ct =>
        match ct.parts with
        | none => false
        | some parts => !(parts.filterMap Part.callOf).isEmpty

/-- Whether a step is anything other than an emitted `done` or `error`
event. -/
def Step.cleanEmit : Step → Bool
  | .emit (SSEEvent.done _) => false
  | .emit (SSEEvent.error _) => false
  | _ => true

/-- A model oracle whose every call returns a single `click_at (500, 500)`
function call. -/
def clickModel : ℕ → Except String ModelResponse := fun _ =>
  Except.ok (respOfParts
    [Part.functionCall ⟨some "click_at",
      some (GeminiComputerAction.click_at 500 500)⟩])

/-- A model oracle whose every call returns one candidate with an empty
parts array (no action calls, no text). -/
def emptyPartsModel : ℕ → Except String ModelResponse := fun _ =>
  Except.ok (respOfParts [])

/-- A model oracle whose every call throws the given message. -/
def throwingModel (msg : String) : ℕ → Except String ModelResponse := fun _ =>
  Except.error msg

/-- A model oracle returning `r1` on the first call and `r2` afterwards. -/
def twoStepModel (r1 r2 : Except String ModelResponse) :
    ℕ → Except String ModelResponse := fun i =>
  if i = 1 then r1 else r2

/-- A cancellation signal that becomes set just before iteration 50. -/
def abortAt50 : ℕ → Bool := fun i => 50 ≤ i

/-- Computational form of `denormalizeX`: the exact-rational
`Math.round((x / 1000) * W)` as a natural-number division, which the kernel
can evaluate. -/
@[simp] lemma denormalizeX_eq_div (x W : ℕ) :
    denormalizeX x W = (((2 * x * W + 1000) / 2000 : ℕ) : ℤ) := by
  rw [denormalizeX, round_eq]
  have h : (x : ℚ) / 1000 * W + 1 / 2 =
      ((2 * x * W + 1000 : ℕ) : ℚ) / ((2000 : ℕ) : ℚ) := by
    push_cast
    ring
  rw [h, Rat.floor_natCast_div_natCast]
  exact (Int.ofNat_div _ _).symm

/-- Computational form of `denormalizeY`. -/
@[simp] lemma denormalizeY_eq_div (y H : ℕ) :
    denormalizeY y H = (((2 * y * H + 1000) / 2000 : ℕ) : ℤ) := by
  rw [denormalizeY, round_eq]
  have h : (y : ℚ) / 1000 * H + 1 / 2 =
      ((2 * y * H + 1000 : ℕ) : ℚ) / ((2000 : ℕ) : ℚ) := by
    push_cast
    ring
  rw [h, Rat.floor_natCast_div_natCast]
  exact (Int.ofNat_div _ _).symm

/-- Computational form of the `scroll_at` magnitude rescaling
`Math.round((magnitude / 1000) * 500)`. -/
@[simp] lemma round_scrollMagnitude_eq_div (m : ℕ) :
    round ((m : ℚ) / 1000 * 500) = (((1000 * m + 1000) / 2000 : ℕ) : ℤ) := by
  rw [round_eq]
  have h : (m : ℚ) / 1000 * 500 + 1 / 2 =
      ((1000 * m + 1000 : ℕ) : ℚ) / ((2000 : ℕ) : ℚ) := by
    push_cast
    ring
  rw [h, Rat.floor_natCast_div_natCast]
  exact (Int.ofNat_div _ _).symm

/-- Shared bound for `denormalizeX`/`denormalizeY`: with a dimension of at
least 501 pixels, a normalized coordinate in 0..999 lands inside
`[0, dimension - 1]`. -/
lemma denorm_bounds (p D : ℕ) (hp : p ≤ 999) (hD : 501 ≤ D) :
    0 ≤ denormalizeX p D ∧ denormalizeX p D ≤ (D : ℤ) - 1 := by
  rw [denormalizeX_eq_div]
  refine ⟨Int.ofNat_nonneg _, ?_⟩
  have hlt : (2 * p * D + 1000) / 2000 < D := by
    apply Nat.div_lt_of_lt_mul
    have h2 : 2 * p * D ≤ 1998 * D := by
      apply Nat.mul_le_mul_right
      omega
    omega
  omega

/-- Claim C1, counterexample: the code does not clamp.  At native width 1
(allowed by the claim, which only requires `W > 0`) the normalized
coordinate 999 maps to pixel 1, outside `[0, W-1] = [0, 0]`. -/
theorem C1_counterexample :
    denormalizeX 999 1 = 1 ∧ ¬ denormalizeX 999 1 ≤ (1 : ℤ) - 1 := by
  simp only [denormalizeX_eq_div]
  decide

/-- Claim C1, amended: `denormalizeX`/`denormalizeY` compute
`Math.round(p / 1000 * dimension)` with no clamping; for every native
resolution with both dimensions at least 501 and normalized coordinates in
0..999 the result lies in `[0, dimension - 1]`, and native `(1920, 1080)`
with normalized `(500, 500)` maps to `(960, 540)`. -/
theorem C1_denormalize_bounds (x y W H : ℕ) (hx : x ≤ 999) (hy : y ≤ 999)
    (hW : 501 ≤ W) (hH : 501 ≤ H) :
    (0 ≤ denormalizeX x W ∧ denormalizeX x W ≤ (W : ℤ) - 1) ∧
    (0 ≤ denormalizeY y H ∧ denormalizeY y H ≤ (H : ℤ) - 1) ∧
    denormalizeX 500 1920 = 960 ∧ denormalizeY 500 1080 = 540 := by
  refine ⟨denorm_bounds x W hx hW, ?_,
    by simp only [denormalizeX_eq_div]; decide,
    by simp only [denormalizeY_eq_div]; decide⟩
  rw [show denormalizeY y H = denormalizeX y H from rfl]
  exact denorm_bounds y H hy hH

/-- Claim C1 witness: the amended bound instantiated at the claim's example
resolution and point. -/
theorem C1_denormalize_bounds_witness :
    (0 ≤ denormalizeX 500 1920 ∧ denormalizeX 500 1920 ≤ (1920 : ℤ) - 1) ∧
    (0 ≤ denormalizeY 500 1080 ∧ denormalizeY 500 1080 ≤ (1080 : ℤ) - 1) ∧
    denormalizeX 500 1920 = 960 ∧ denormalizeY 500 1080 = 540 :=
  C1_denormalize_bounds 500 500 1920 1080 (by decide) (by decide) (by decide)
    (by decide)

/-- Claim C6: the code diverges from the claim on an absent `press_enter`.
`executeAction` presses Enter (its guard is `press_enter !== false`, and the
interface documents `press_enter` as defaulting to `true`), yet
`getActionSettleDelay` tests truthiness (`press_enter ? 3000 : ...`), so the
absent default gets `text.length * 50 = 250` ms instead of the flat 3000 ms;
only an explicit `true` gets 3000 ms. -/
theorem C6_settle_delay_divergence :
    getActionSettleDelay
        (GeminiComputerAction.type_text_at 500 500 "hello" none none) = 250 ∧
    Step.remoteCall (RemoteCall.press "Enter") ∈
      (execAction desktop0 (1920, 1080) "about:blank"
        (GeminiComputerAction.type_text_at 500 500 "hello" none none)).1 ∧
    getActionSettleDelay
        (GeminiComputerAction.type_text_at 500 500 "hello" (some true) none) =
      3000 ∧
    getActionSettleDelay
        (GeminiComputerAction.type_text_at 500 500 "hello" (some false) none) =
      250 := by
  refine ⟨by decide, ?_, by decide, by decide⟩
  simp only [execAction, runCalls, desktop0, denormalizeX_eq_div,
    denormalizeY_eq_div]
  decide

/-- Claim C7, counterexample: a `scroll_at` with direction `left` is not a
remote-input no-op — the focusing left click at the denormalized
coordinates is still issued before the direction is examined. -/
theorem C7_counterexample :
    (execAction desktop0 (1920, 1080) "about:blank"
        (GeminiComputerAction.scroll_at 500 500 Direction.left none)).1 =
      [Step.remoteCall (RemoteCall.leftClick 960 540), Step.warn] ∧
    remoteCallsOf (execAction desktop0 (1920, 1080) "about:blank"
        (GeminiComputerAction.scroll_at 500 500 Direction.left none)).1 ≠
      [] := by
  simp only [execAction, runCalls, desktop0, denormalizeX_eq_div,
    denormalizeY_eq_div, remoteCallsOf]
  decide

/-- Claim C7, amended: for `scroll_document`, only `up`/`down` issue a
scroll and `left`/`right` degrade to a warning with no remote call at all;
for `scroll_at`, `left`/`right` issue no scroll (warning instead) but the
focusing left click at the denormalized target still happens, and `up`/
`down` click then scroll.  No case raises. -/
theorem C7_scroll_behavior (d : Direction) (x y : ℕ) (mag : Option ℕ)
    (url : String) (res : ℕ × ℕ) :
    ((d = Direction.up ∨ d = Direction.down) →
      execAction desktop0 res url (GeminiComputerAction.scroll_document d) =
        ([Step.remoteCall (RemoteCall.scroll d 500)], Except.ok url)) ∧
    ((d = Direction.left ∨ d = Direction.right) →
      execAction desktop0 res url (GeminiComputerAction.scroll_document d) =
        ([Step.warn], Except.ok url)) ∧
    ((d = Direction.left ∨ d = Direction.right) →
      execAction desktop0 res url (GeminiComputerAction.scroll_at x y d mag) =
        ([Step.remoteCall (RemoteCall.leftClick (denormalizeX x res.1)
            (denormalizeY y res.2)), Step.warn], Except.ok url)) ∧
    ((d = Direction.up ∨ d = Direction.down) → ∃ amt,
      execAction desktop0 res url (GeminiComputerAction.scroll_at x y d mag) =
        ([Step.remoteCall (RemoteCall.leftClick (denormalizeX x res.1)
            (denormalizeY y res.2)),
          Step.remoteCall (RemoteCall.scroll d amt)], Except.ok url)) := by
  refine ⟨?_, ?_, ?_, ?_⟩ <;> rcases d <;>
    simp [execAction, runCalls, desktop0]

/-- Claim C7 witness: the amended behavior at direction `left`,
normalized target `(500, 500)`, native `(1920, 1080)`. -/
theorem C7_scroll_behavior_witness :
    execAction desktop0 (1920, 1080) "about:blank"
        (GeminiComputerAction.scroll_at 500 500 Direction.left none) =
      ([Step.remoteCall (RemoteCall.leftClick (denormalizeX 500 1920)
          (denormalizeY 500 1080)), Step.warn], Except.ok "about:blank") :=
  (C7_scroll_behavior Direction.left 500 500 none "about:blank"
      (1920, 1080)).2.2.1 (Or.inl rfl)

/-- Claim C9: every `scroll_at` execution first left-clicks at the
denormalized target, whatever the direction; for `left`/`right` the
remainder of the execution is only the warning (the scroll degrades, the
click side effect remains). -/
theorem C9_scroll_at_click_first (x y : ℕ) (d : Direction) (mag : Option ℕ)
    (url : String) (W H : ℕ) :
    ∃ rest,
      (execAction desktop0 (W, H) url
          (GeminiComputerAction.scroll_at x y d mag)).1 =
        Step.remoteCall (RemoteCall.leftClick (denormalizeX x W)
          (denormalizeY y H)) :: rest ∧
      ((d = Direction.left ∨ d = Direction.right) → rest = [Step.warn]) := by
  rcases d <;> simp [execAction, runCalls, desktop0]

/-- Claim C9 witness: the click-first shape at direction `right`,
normalized target `(999, 0)`, native `(1920, 1080)`. -/
theorem C9_scroll_at_click_first_witness :
    ∃ rest,
      (execAction desktop0 (1920, 1080) "about:blank"
          (GeminiComputerAction.scroll_at 999 0 Direction.right
            (some 100))).1 =
        Step.remoteCall (RemoteCall.leftClick (denormalizeX 999 1920)
          (denormalizeY 0 1080)) :: rest ∧
      ((Direction.right = Direction.left ∨ Direction.right = Direction.right) →
        rest = [Step.warn]) :=
  C9_scroll_at_click_first 999 0 Direction.right (some 100) "about:blank"
    1920 1080

end Surf

namespace Surf

/-- Projection `events` distributes over trace concatenation. -/
lemma events_append (a b : List Step) :
    events (a ++ b) = events a ++ events b := by
  simp [events]

/-- Projection `sleepsOf` distributes over trace concatenation. -/
lemma sleepsOf_append (a b : List Step) :
    sleepsOf (a ++ b) = sleepsOf a ++ sleepsOf b := by
  simp [sleepsOf]

/-- Projection `remoteCallsOf` distributes over trace concatenation. -/
lemma remoteCallsOf_append (a b : List Step) :
    remoteCallsOf (a ++ b) = remoteCallsOf a ++ remoteCallsOf b := by
  simp [remoteCallsOf]

/-- Projection `modelCallCount` adds over trace concatenation. -/
lemma modelCallCount_append (a b : List Step) :
    modelCallCount (a ++ b) = modelCallCount a + modelCallCount b := by
  simp [modelCallCount]

/-- The pre-loop steps contain no event, no model call, no sleep and no
remote call. -/
lemma initSteps_shape (msgs : List Message) :
    ∀ s ∈ initSteps msgs, Step.emittedEvent s = none ∧
      Step.isModelCall s = false ∧ Step.sleepMs s = none ∧
      Step.remoteOf s = none ∧ Step.cleanEmit s = true := by
  intro s hs
  simp only [initSteps, List.mem_cons, List.mem_append, List.mem_map,
    List.mem_singleton] at hs
  rcases hs with rfl | ⟨⟨m, _, rfl⟩ | rfl | h⟩
  · exact ⟨rfl, rfl, rfl, rfl, rfl⟩
  · exact ⟨rfl, rfl, rfl, rfl, rfl⟩
  · exact ⟨rfl, rfl, rfl, rfl, rfl⟩
  · simp at h

/-- The pre-loop steps emit nothing. -/
lemma events_initSteps (msgs : List Message) : events (initSteps msgs) = [] := by
  rw [events, List.filterMap_eq_nil_iff]
  intro s hs
  exact (initSteps_shape msgs s hs).1

/-- The pre-loop steps make no model call. -/
lemma modelCallCount_initSteps (msgs : List Message) :
    modelCallCount (initSteps msgs) = 0 := by
  rw [modelCallCount, List.length_eq_zero, List.filter_eq_nil_iff]
  intro s hs
  simp [(initSteps_shape msgs s hs).2.1]

/-- The pre-loop steps sleep nowhere. -/
lemma sleepsOf_initSteps (msgs : List Message) :
    sleepsOf (initSteps msgs) = [] := by
  rw [sleepsOf, List.filterMap_eq_nil_iff]
  intro s hs
  exact (initSteps_shape msgs s hs).2.2.1

/-- The pre-loop steps issue no remote call. -/
lemma remoteCallsOf_initSteps (msgs : List Message) :
    remoteCallsOf (initSteps msgs) = [] := by
  rw [remoteCallsOf, List.filterMap_eq_nil_iff]
  intro s hs
  exact (initSteps_shape msgs s hs).2.2.2.1

/-- Under a never-failing desktop, `runCalls` performs every call and keeps
the URL. -/
lemma runCalls_desktop0 (url : String) (cs : List RemoteCall) :
    runCalls desktop0 url cs = (cs.map Step.remoteCall, Except.ok url) := by
  induction cs with
  | nil => rfl
  | cons c rest ih => simp [runCalls, desktop0, ih]

/-- Shape of a list of remote-call steps. -/
lemma remote_map_shape (l : List RemoteCall) :
    ∀ s ∈ l.map Step.remoteCall, Step.emittedEvent s = none ∧
      Step.isModelCall s = false ∧ Step.sleepMs s = none ∧
      Step.cleanEmit s = true := by
  intro s hs
  obtain ⟨c, _, rfl⟩ := List.mem_map.mp hs
  exact ⟨rfl, rfl, rfl, rfl⟩

end Surf

namespace Surf

/-- Under a never-failing desktop, every action executes successfully; its
steps emit no event and make no model call, and only `wait_5_seconds`
sleeps. -/
lemma execAction_desktop0_spec (res : ℕ × ℕ) (url : String)
    (a : GeminiComputerAction) :
    ∃ steps url', execAction desktop0 res url a = (steps, Except.ok url') ∧
      (∀ s ∈ steps, Step.emittedEvent s = none ∧ Step.isModelCall s = false ∧
        Step.cleanEmit s = true) ∧
      (a ≠ GeminiComputerAction.wait_5_seconds →
        ∀ s ∈ steps, Step.sleepMs s = none) := by
  cases a with
  | open_web_browser => exact ⟨[], _, rfl, by simp, by simp⟩
  | wait_5_seconds =>
      refine ⟨[Step.sleep 5000], url, rfl, ?_, fun h => absurd rfl h⟩
      intro s hs
      simp only [List.mem_singleton] at hs
      subst hs
      exact ⟨rfl, rfl, rfl⟩
  | go_back =>
      refine ⟨[Step.warn], url, rfl, ?_, ?_⟩
      · intro s hs
        simp only [List.mem_singleton] at hs
        subst hs
        exact ⟨rfl, rfl, rfl⟩
      · intro _ s hs
        simp only [List.mem_singleton] at hs
        subst hs
        rfl
  | go_forward =>
      refine ⟨[Step.warn], url, rfl, ?_, ?_⟩
      · intro s hs
        simp only [List.mem_singleton] at hs
        subst hs
        exact ⟨rfl, rfl, rfl⟩
      · intro _ s hs
        simp only [List.mem_singleton] at hs
        subst hs
        rfl
  | search =>
      refine ⟨[Step.warn], url, rfl, ?_, ?_⟩
      · intro s hs
        simp only [List.mem_singleton] at hs
        subst hs
        exact ⟨rfl, rfl, rfl⟩
      · intro _ s hs
        simp only [List.mem_singleton] at hs
        subst hs
        rfl
  | navigate u => exact ⟨[], _, rfl, by simp, by simp⟩
  | click_at x y =>
      refine ⟨_, url, runCalls_desktop0 url _, ?_, ?_⟩
      · intro s hs
        exact ⟨(remote_map_shape _ s hs).1, (remote_map_shape _ s hs).2.1,
          (remote_map_shape _ s hs).2.2.2⟩
      · intro _ s hs
        exact (remote_map_shape _ s hs).2.2.1
  | hover_at x y =>
      refine ⟨_, url, runCalls_desktop0 url _, ?_, ?_⟩
      · intro s hs
        exact ⟨(remote_map_shape _ s hs).1, (remote_map_shape _ s hs).2.1,
          (remote_map_shape _ s hs).2.2.2⟩
      · intro _ s hs
        exact (remote_map_shape _ s hs).2.2.1
  | type_text_at x y text pe cbt =>
      refine ⟨_, url, runCalls_desktop0 url _, ?_, ?_⟩
      · intro s hs
        exact ⟨(remote_map_shape _ s hs).1, (remote_map_shape _ s hs).2.1,
          (remote_map_shape _ s hs).2.2.2⟩
      · intro _ s hs
        exact (remote_map_shape _ s hs).2.2.1
  | key_combination keys =>
      refine ⟨_, url, runCalls_desktop0 url _, ?_, ?_⟩
      · intro s hs
        exact ⟨(remote_map_shape _ s hs).1, (remote_map_shape _ s hs).2.1,
          (remote_map_shape _ s hs).2.2.2⟩
      · intro _ s hs
        exact (remote_map_shape _ s hs).2.2.1
  | scroll_document d =>
      by_cases hd : d = Direction.up ∨ d = Direction.down
      · refine ⟨[RemoteCall.scroll d 500].map Step.remoteCall, url, ?_, ?_, ?_⟩
        · simp only [execAction, if_pos hd]
          exact runCalls_desktop0 url _
        · intro s hs
          exact ⟨(remote_map_shape _ s hs).1, (remote_map_shape _ s hs).2.1,
            (remote_map_shape _ s hs).2.2.2⟩
        · intro _ s hs
          exact (remote_map_shape _ s hs).2.2.1
      · refine ⟨[Step.warn], url, ?_, ?_, ?_⟩
        · simp only [execAction, if_neg hd]
        · intro s hs
          simp only [List.mem_singleton] at hs
          subst hs
          exact ⟨rfl, rfl, rfl⟩
        · intro _ s hs
          simp only [List.mem_singleton] at hs
          subst hs
          rfl
  | scroll_at x y d mag =>
      by_cases hd : d = Direction.up ∨ d = Direction.down
      · refine ⟨[Step.remoteCall (RemoteCall.leftClick (denormalizeX x res.1)
            (denormalizeY y res.2)),
          Step.remoteCall (RemoteCall.scroll d (scrollAtMagnitude mag))], url,
          ?_, ?_, ?_⟩
        · simp only [execAction, runCalls_desktop0, if_pos hd]
          rfl
        · intro s hs
          simp only [List.mem_cons, List.not_mem_nil, or_false] at hs
          rcases hs with rfl | rfl
          · exact ⟨rfl, rfl, rfl⟩
          · exact ⟨rfl, rfl, rfl⟩
        · intro _ s hs
          simp only [List.mem_cons, List.not_mem_nil, or_false] at hs
          rcases hs with rfl | rfl
          · rfl
          · rfl
      · refine ⟨[Step.remoteCall (RemoteCall.leftClick (denormalizeX x res.1)
            (denormalizeY y res.2)), Step.warn], url, ?_, ?_, ?_⟩
        · simp only [execAction, runCalls_desktop0, if_neg hd]
          rfl
        · intro s hs
          simp only [List.mem_cons, List.not_mem_nil, or_false] at hs
          rcases hs with rfl | rfl
          · exact ⟨rfl, rfl, rfl⟩
          · exact ⟨rfl, rfl, rfl⟩
        · intro _ s hs
          simp only [List.mem_cons, List.not_mem_nil, or_false] at hs
          rcases hs with rfl | rfl
          · rfl
          · rfl
  | drag_and_drop x y dx dy =>
      refine ⟨_, url, runCalls_desktop0 url _, ?_, ?_⟩
      · intro s hs
        exact ⟨(remote_map_shape _ s hs).1, (remote_map_shape _ s hs).2.1,
          (remote_map_shape _ s hs).2.2.2⟩
      · intro _ s hs
        exact (remote_map_shape _ s hs).2.2.1
  | unknown n =>
      refine ⟨[Step.warn], url, rfl, ?_, ?_⟩
      · intro s hs
        simp only [List.mem_singleton] at hs
        subst hs
        exact ⟨rfl, rfl, rfl⟩
      · intro _ s hs
        simp only [List.mem_singleton] at hs
        subst hs
        rfl

end Surf

namespace Surf

/-- Under a never-failing desktop, processing a batch of function calls
never throws, and its steps emit only `action` and `action_completed`
events and make no model call. -/
lemma processCalls_desktop0_spec (res : ℕ × ℕ) :
    ∀ (rcs : List RawFunctionCall) (url : String), ∃ steps acts url',
      processCalls desktop0 res rcs url = (steps, acts, url', none) ∧
      ∀ s ∈ steps, Step.cleanEmit s = true ∧ Step.isModelCall s = false := by
  intro rcs
  induction rcs with
  | nil => exact fun url => ⟨[], [], url, rfl, by simp⟩
  | cons rc rest ih =>
    intro url
    by_cases hm : rc.malformed
    · obtain ⟨steps, acts, url', hEq, hshape⟩ := ih url
      refine ⟨Step.warn :: steps, acts, url', ?_, ?_⟩
      · simp only [processCalls, hm, if_true, hEq]
      · intro s hs
        rcases List.mem_cons.mp hs with rfl | hs
        · exact ⟨rfl, rfl⟩
        · exact hshape s hs
    · obtain ⟨esteps, url1, hE, heshape, _⟩ :=
        execAction_desktop0_spec res url
          (rc.args.getD (GeminiComputerAction.unknown ""))
      obtain ⟨steps, acts, url', hEq, hshape⟩ := ih url1
      refine ⟨Step.emit (SSEEvent.action
          (rc.args.getD (GeminiComputerAction.unknown ""))) ::
          (esteps ++ Step.emit SSEEvent.action_completed :: steps),
        (rc.args.getD (GeminiComputerAction.unknown "")) :: acts, url', ?_, ?_⟩
      · simp only [processCalls, hm, if_false, Bool.false_eq_true, hE, hEq]
      · intro s hs
        rcases List.mem_cons.mp hs with rfl | hs
        · exact ⟨rfl, rfl⟩
        · rcases List.mem_append.mp hs with hs | hs
          · obtain ⟨h1, h2, h3⟩ := heshape s hs
            exact ⟨h3, h2⟩
          · rcases List.mem_cons.mp hs with rfl | hs
            · exact ⟨rfl, rfl⟩
            · exact hshape s hs

end Surf

namespace Surf

/-- The reasoning steps of an iteration are at most one `reasoning` event. -/
lemma reasoningStepsOf_shape (parts : List Part) :
    ∀ s ∈ reasoningStepsOf parts, Step.cleanEmit s = true ∧
      Step.isModelCall s = false ∧ Step.sleepMs s = none ∧
      Step.remoteOf s = none := by
  intro s hs
  rw [reasoningStepsOf] at hs
  split at hs
  · rcases List.mem_singleton.mp hs with rfl
    exact ⟨rfl, rfl, rfl, rfl⟩
  · simp at hs

/-- The post-execution steps of an iteration emit nothing and make no
model call or remote call. -/
lemma postStepsOf_shape (parts : List Part) (fcs : List RawFunctionCall)
    (executed : List GeminiComputerAction) :
    ∀ s ∈ postStepsOf parts fcs executed, Step.cleanEmit s = true ∧
      Step.isModelCall s = false ∧ Step.remoteOf s = none := by
  intro s hs
  rw [postStepsOf] at hs
  rcases List.mem_append.mp hs with hs | hs
  · split at hs
    · simp at hs
    · rcases List.mem_singleton.mp hs with rfl
      exact ⟨rfl, rfl, rfl⟩
  · rcases List.mem_cons.mp hs with rfl | hs
    · exact ⟨rfl, rfl, rfl⟩
    · rcases List.mem_cons.mp hs with rfl | hs
      · exact ⟨rfl, rfl, rfl⟩
      · rcases List.mem_singleton.mp hs with rfl
        exact ⟨rfl, rfl, rfl⟩

/-- A trace with no model-call step has count zero. -/
lemma modelCallCount_zero (tr : List Step)
    (h : ∀ s ∈ tr, Step.isModelCall s = false) : modelCallCount tr = 0 := by
  rw [modelCallCount, List.length_eq_zero, List.filter_eq_nil_iff]
  intro s hs
  simp [h s hs]

/-- Events produced by clean steps are neither `done` nor `error`. -/
lemma events_of_clean (tr : List Step)
    (h : ∀ s ∈ tr, Step.cleanEmit s = true) :
    ∀ e ∈ events tr, SSEEvent.isError e = false ∧ SSEEvent.isDone e = false := by
  intro e he
  obtain ⟨s, hs, hse⟩ := List.mem_filterMap.mp he
  have hcl := h s hs
  cases s with
  | emit e' =>
    rw [show Step.emittedEvent (Step.emit e') = some e' from rfl,
      Option.some_inj] at hse
    subst hse
    cases e' with
    | reasoning _ => exact ⟨rfl, rfl⟩
    | action _ => exact ⟨rfl, rfl⟩
    | action_completed => exact ⟨rfl, rfl⟩
    | error _ => exact absurd hcl (by simp [Step.cleanEmit])
    | done _ => exact absurd hcl (by simp [Step.cleanEmit])
  | modelCall _ => simp [Step.emittedEvent] at hse
  | remoteCall _ => simp [Step.emittedEvent] at hse
  | sleep _ => simp [Step.emittedEvent] at hse
  | screenshot => simp [Step.emittedEvent] at hse
  | pushContent _ => simp [Step.emittedEvent] at hse
  | warn => simp [Step.emittedEvent] at hse

end Surf

namespace Surf

/-- The main loop decomposition: as long as the signal is unset and the
model keeps proposing function calls (and the desktop never fails), the
loop runs `j` full iterations, contributing `j` model calls and only clean
steps (no `done`, no `error`), and then continues as the loop with `j`
fewer iterations of budget. -/
lemma streamLoop_split (model : ℕ → Except String ModelResponse)
    (aborted : ℕ → Bool) (res : ℕ × ℕ) :
    ∀ (j fuel n : ℕ) (url : String), j ≤ fuel →
      (∀ i, n < i → i ≤ n + j →
        aborted i = false ∧ alwaysActing (model i) = true) →
      ∃ steps url',
        streamLoop model desktop0 aborted res fuel n url =
          (steps ++
              (streamLoop model desktop0 aborted res (fuel - j) (n + j) url').1,
            (streamLoop model desktop0 aborted res (fuel - j) (n + j) url').2) ∧
        (∀ s ∈ steps, Step.cleanEmit s = true) ∧
        modelCallCount steps = j := by
  intro j
  induction j with
  | zero =>
    intro fuel n url _ _
    exact ⟨[], url, by simp, by simp, rfl⟩
  | succ j ih =>
    intro fuel n url hj h
    obtain ⟨f, rfl⟩ : ∃ f, fuel = f + 1 := ⟨fuel - 1, by omega⟩
    have hab : aborted (n + 1) = false := (h (n + 1) (by omega) (by omega)).1
    have hact : alwaysActing (model (n + 1)) = true :=
      (h (n + 1) (by omega) (by omega)).2
    rcases hm : model (n + 1) with msg | resp
    · rw [hm] at hact
      simp [alwaysActing] at hact
    rcases hc : resp.candidates with _ | ⟨cand, cands⟩
    · rw [hm] at hact
      simp [alwaysActing, hc] at hact
    rcases hct : cand.content with _ | ct
    · rw [hm] at hact
      simp [alwaysActing, hc, hct] at hact
    rcases hp : ct.parts with _ | parts
    · rw [hm] at hact
      simp [alwaysActing, hc, hct, hp] at hact
    rcases hfc : parts.filterMap Part.callOf with _ | ⟨fc, fcs⟩
    · rw [hm] at hact
      simp [alwaysActing, hc, hct, hp, hfc] at hact
    obtain ⟨psteps, acts, url1, hPC, hPCshape⟩ :=
      processCalls_desktop0_spec res (fc :: fcs) url
    obtain ⟨steps', url'', hEq', hclean', hcount'⟩ :=
      ih f (n + 1) url1 (by omega)
        (fun i h1 h2 => h i (by omega) (by omega))
    have e1 : f + 1 - (j + 1) = f - j := by omega
    have e2 : n + (j + 1) = (n + 1) + j := by omega
    rw [e1, e2]
    refine ⟨Step.modelCall (n + 1) ::
        (reasoningStepsOf parts ++ psteps ++
          postStepsOf parts (fc :: fcs) acts ++ steps'), url'', ?_, ?_, ?_⟩
    · have hunfold : streamLoop model desktop0 aborted res (f + 1) n url =
          (Step.modelCall (n + 1) ::
              (reasoningStepsOf parts ++ psteps ++
                postStepsOf parts (fc :: fcs) acts ++
                (streamLoop model desktop0 aborted res f (n + 1) url1).1),
            (streamLoop model desktop0 aborted res f (n + 1) url1).2) := by
        rcases hR : streamLoop model desktop0 aborted res f (n + 1) url1
          with ⟨rest, exit⟩
        simp only [streamLoop, hab, Bool.false_eq_true, if_false, hm, hc, hct,
          hp, hfc, hPC, hR]
      rw [hunfold, hEq']
      simp [List.append_assoc]
    · intro s hs
      rcases List.mem_cons.mp hs with rfl | hs
      · rfl
      · rcases List.mem_append.mp hs with hs | hs
        · rcases List.mem_append.mp hs with hs | hs
          · rcases List.mem_append.mp hs with hs | hs
            · exact (reasoningStepsOf_shape parts s hs).1
            · exact (hPCshape s hs).1
          · exact (postStepsOf_shape parts (fc :: fcs) acts s hs).1
        · exact hclean' s hs
    · have hmc : modelCallCount (Step.modelCall (n + 1) ::
          (reasoningStepsOf parts ++ psteps ++
            postStepsOf parts (fc :: fcs) acts ++ steps')) =
          1 + modelCallCount (reasoningStepsOf parts ++ psteps ++
            postStepsOf parts (fc :: fcs) acts ++ steps') := by
        simp only [modelCallCount, List.filter_cons, Step.isModelCall,
          if_true, List.length_cons, modelCallCount_append]
        omega
      rw [hmc, modelCallCount_append, modelCallCount_append,
        modelCallCount_append,
        modelCallCount_zero _ (fun s hs => (reasoningStepsOf_shape parts s hs).2.1),
        modelCallCount_zero _ (fun s hs => (hPCshape s hs).2),
        modelCallCount_zero _
          (fun s hs => (postStepsOf_shape parts (fc :: fcs) acts s hs).2.1),
        hcount']
      omega

end Surf

namespace Surf

/-- Claim C3: with a model client that always proposes at least one action
call and a never-set cancellation signal (and a desktop that never fails),
the run makes exactly 50 model calls and the event stream is a prefix of
non-`error`, non-`done` events followed by exactly the iteration-limit
`error` and the final `done`. -/
theorem C3_iteration_cap (model : ℕ → Except String ModelResponse)
    (res : ℕ × ℕ) (msgs : List Message)
    (hmodel : ∀ i, 1 ≤ i → i ≤ 50 → alwaysActing (model i) = true) :
    modelCallCount (stream model desktop0 neverAborted res msgs) = 50 ∧
    ∃ pre, events (stream model desktop0 neverAborted res msgs) =
        pre ++ [SSEEvent.error limitContent, SSEEvent.done none] ∧
        ∀ e ∈ pre, SSEEvent.isError e = false ∧ SSEEvent.isDone e = false := by
  obtain ⟨steps, url', hEq, hclean, hcount⟩ :=
    streamLoop_split model neverAborted res 50 50 0 "about:blank" le_rfl
      (fun i h1 h2 => ⟨rfl, hmodel i h1 (by omega)⟩)
  have hbase : streamLoop model desktop0 neverAborted res (50 - 50) (0 + 50)
      url' = ([], LoopExit.normal 50) := rfl
  rw [hbase] at hEq
  have hstream : stream model desktop0 neverAborted res msgs =
      initSteps msgs ++ (steps ++ []) ++
        ([Step.emit (SSEEvent.error limitContent)] ++
          [Step.emit (SSEEvent.done none)]) := by
    simp only [stream, MAX_ITERATIONS, hEq]
    norm_num
  rw [hstream]
  constructor
  · rw [modelCallCount_append, modelCallCount_append,
      modelCallCount_initSteps, List.append_nil, hcount]
    rfl
  · refine ⟨events steps, ?_, events_of_clean steps hclean⟩
    rw [events_append, events_append, events_initSteps, List.append_nil]
    rfl

/-- Claim C3 witness: the constant `click_at` model makes exactly 50 model
calls and ends with the limit `error` then `done`. -/
theorem C3_iteration_cap_witness :
    modelCallCount (stream clickModel desktop0 neverAborted (1920, 1080) []) =
      50 ∧
    ∃ pre, events (stream clickModel desktop0 neverAborted (1920, 1080) []) =
        pre ++ [SSEEvent.error limitContent, SSEEvent.done none] ∧
        ∀ e ∈ pre, SSEEvent.isError e = false ∧ SSEEvent.isDone e = false :=
  C3_iteration_cap clickModel (1920, 1080) []
    (fun _ _ _ => rfl)

/-- Claim C2, amended: a model response whose parts carry no function call
and no visible text ends the turn with the in-loop completion `done`
immediately followed by the generator's unconditional trailing `done` — two
`done` events, no `reasoning`, no `action`. -/
theorem C2_empty_response (model : ℕ → Except String ModelResponse)
    (parts : List Part) (res : ℕ × ℕ) (msgs : List Message)
    (hmodel : model 1 = Except.ok (respOfParts parts))
    (hnofc : parts.filterMap Part.callOf = [])
    (hnotext : hasVisibleText (String.join (parts.filterMap Part.textOf)) =
      false) :
    events (stream model desktop0 neverAborted res msgs) =
      [SSEEvent.done none, SSEEvent.done none] := by
  have hRS : reasoningStepsOf parts = [] := by
    rw [reasoningStepsOf]
    simp [hnotext]
  have h1 : streamLoop model desktop0 neverAborted res 50 0
      "about:blank" =
      (Step.modelCall 1 ::
          (reasoningStepsOf parts ++ [Step.emit (SSEEvent.done none)]),
        LoopExit.normal 1) := by
    show streamLoop model desktop0 neverAborted res (49 + 1) 0
      "about:blank" = _
    simp only [streamLoop, neverAborted, Bool.false_eq_true, if_false,
      Nat.zero_add, hmodel, respOfParts, hnofc]
  have hstream : stream model desktop0 neverAborted res msgs =
      initSteps msgs ++
        (Step.modelCall 1 ::
          (reasoningStepsOf parts ++ [Step.emit (SSEEvent.done none)])) ++
        ([] ++ [Step.emit (SSEEvent.done none)]) := by
    simp only [stream, MAX_ITERATIONS, h1]
    norm_num
  rw [hstream, events_append, events_append, events_initSteps, hRS]
  rfl

end Surf

namespace Surf

/-- Claim C2, counterexample: a response with an empty parts array (no
action calls, no reasoning text) yields two `done` events, not one, so
events do follow the first `done`. -/
theorem C2_counterexample :
    events (stream emptyPartsModel desktop0 neverAborted (1920, 1080) []) =
      [SSEEvent.done none, SSEEvent.done none] ∧
    events (stream emptyPartsModel desktop0 neverAborted (1920, 1080) []) ≠
      [SSEEvent.done none] := by
  decide

/-- Claim C2 witness: the amended two-`done` shape at the empty-parts
response. -/
theorem C2_empty_response_witness :
    events (stream emptyPartsModel desktop0 neverAborted (1920, 1080) []) =
      [SSEEvent.done none, SSEEvent.done none] :=
  C2_empty_response emptyPartsModel [] (1920, 1080) [] rfl rfl rfl

/-- Claim C5, amended: if the cancellation signal is set from iteration `k`
on and iterations before `k` all propose actions, then iteration `k` makes
no model call and executes nothing (the run makes `k - 1` model calls), and
the trace ends with the cancellation `done`, then — only when `k = 50`,
because the loop counter has then already reached the cap — the
iteration-limit `error`, then the trailing `done`. -/
theorem C5_cancellation (model : ℕ → Except String ModelResponse) (k : ℕ)
    (res : ℕ × ℕ) (msgs : List Message) (hk1 : 1 ≤ k) (hk : k ≤ 50)
    (hmodel : ∀ i, 1 ≤ i → i < k → alwaysActing (model i) = true) :
    ∃ pre, stream model desktop0 (fun i => k ≤ i) res msgs =
        pre ++ [Step.emit (SSEEvent.done (some "Generation stopped by user"))] ++
          (if 50 ≤ k then [Step.emit (SSEEvent.error limitContent)] else []) ++
          [Step.emit (SSEEvent.done none)] ∧
      (∀ s ∈ pre, Step.cleanEmit s = true) ∧
      modelCallCount (stream model desktop0 (fun i => k ≤ i) res msgs) =
        k - 1 := by
  obtain ⟨steps, url', hEq, hclean, hcount⟩ :=
    streamLoop_split model (fun i => k ≤ i) res (k - 1) 50 0 "about:blank"
      (by omega)
      (fun i h1 h2 => ⟨decide_eq_false (by omega), hmodel i (by omega) (by omega)⟩)
  obtain ⟨g, hg⟩ : ∃ g, 50 - (k - 1) = g + 1 := ⟨50 - k, by omega⟩
  have hstep : streamLoop model desktop0 (fun i => k ≤ i) res (50 - (k - 1))
      (0 + (k - 1)) url' =
      ([Step.emit (SSEEvent.done (some "Generation stopped by user"))],
        LoopExit.normal (0 + (k - 1) + 1)) := by
    rw [hg]
    have hcond : (fun i => decide (k ≤ i)) (0 + (k - 1) + 1) = true :=
      decide_eq_true (by omega)
    simp only [streamLoop, hcond, if_true]
  rw [hstep] at hEq
  have hkk : 0 + (k - 1) + 1 = k := by omega
  rw [hkk] at hEq
  have hstream : stream model desktop0 (fun i => k ≤ i) res msgs =
      (initSteps msgs ++ steps) ++
        [Step.emit (SSEEvent.done (some "Generation stopped by user"))] ++
        (if 50 ≤ k then [Step.emit (SSEEvent.error limitContent)] else []) ++
        [Step.emit (SSEEvent.done none)] := by
    simp only [stream, MAX_ITERATIONS, hEq]
    simp [List.append_assoc]
  refine ⟨initSteps msgs ++ steps, hstream, ?_, ?_⟩
  · intro s hs
    rcases List.mem_append.mp hs with hs | hs
    · exact (initSteps_shape msgs s hs).2.2.2.2
    · exact hclean s hs
  · rw [hstream, modelCallCount_append, modelCallCount_append,
      modelCallCount_append, modelCallCount_append,
      modelCallCount_initSteps, hcount]
    have h1 : modelCallCount
        [Step.emit (SSEEvent.done (some "Generation stopped by user"))] = 0 :=
      rfl
    have h2 : modelCallCount
        (if 50 ≤ k then [Step.emit (SSEEvent.error limitContent)] else []) =
        0 := by
      split <;> rfl
    have h3 : modelCallCount [Step.emit (SSEEvent.done none)] = 0 := rfl
    rw [h1, h2, h3]
    omega

end Surf

namespace Surf

/-- Claim C5, counterexample: with the signal set just before iteration 50
(iterations 1–49 all propose actions and succeed), the run still emits the
iteration-limit `error` after the cancellation `done` — the claim's "no
Error event" fails at `k = 50` — while iteration 50 indeed makes no model
call (49 calls in total). -/
theorem C5_counterexample :
    (events (stream clickModel desktop0 abortAt50 (1920, 1080) [])).filter
        SSEEvent.isError = [SSEEvent.error limitContent] ∧
    modelCallCount (stream clickModel desktop0 abortAt50 (1920, 1080) []) =
      49 := by
  obtain ⟨steps, url', hEq, hclean, hcount⟩ :=
    streamLoop_split clickModel abortAt50 (1920, 1080) 49 50 0 "about:blank"
      (by omega)
      (fun i h1 h2 => ⟨decide_eq_false (by omega), rfl⟩)
  have hstep : streamLoop clickModel desktop0 abortAt50 (1920, 1080)
      (50 - 49) (0 + 49) url' =
      ([Step.emit (SSEEvent.done (some "Generation stopped by user"))],
        LoopExit.normal 50) := by
    have hcond : abortAt50 (0 + 49 + 1) = true := decide_eq_true (by omega)
    show streamLoop clickModel desktop0 abortAt50 (1920, 1080) (0 + 1)
      (0 + 49) url' = _
    simp only [streamLoop, hcond, if_true]
  rw [hstep] at hEq
  have hstream : stream clickModel desktop0 abortAt50 (1920, 1080) [] =
      initSteps [] ++
        (steps ++
          [Step.emit (SSEEvent.done (some "Generation stopped by user"))]) ++
        ([Step.emit (SSEEvent.error limitContent)] ++
          [Step.emit (SSEEvent.done none)]) := by
    simp only [stream, MAX_ITERATIONS, hEq]
    norm_num
  have hfil : (events steps).filter SSEEvent.isError = [] :=
    List.filter_eq_nil_iff.mpr
      (fun e he => by simp [(events_of_clean steps hclean e he).1])
  constructor
  · rw [hstream, events_append, events_append, events_append,
      events_initSteps]
    simp only [List.filter_append, hfil]
    rfl
  · rw [hstream, modelCallCount_append, modelCallCount_append,
      modelCallCount_append, modelCallCount_initSteps, hcount]
    rfl

/-- Claim C5 witness: the amended cancellation behavior instantiated at
`k = 3` with the constant `click_at` model. -/
theorem C5_cancellation_witness :
    ∃ pre, stream clickModel desktop0 (fun i => 3 ≤ i) (1920, 1080) [] =
        pre ++ [Step.emit (SSEEvent.done (some "Generation stopped by user"))] ++
          (if 50 ≤ 3 then [Step.emit (SSEEvent.error limitContent)] else []) ++
          [Step.emit (SSEEvent.done none)] ∧
      (∀ s ∈ pre, Step.cleanEmit s = true) ∧
      modelCallCount (stream clickModel desktop0 (fun i => 3 ≤ i)
        (1920, 1080) []) = 3 - 1 :=
  C5_cancellation clickModel 3 (1920, 1080) [] (by decide) (by decide)
    (fun _ _ _ => rfl)

end Surf

namespace Surf

/-- Claim C8: whether the throw comes from the model call (first scenario)
or from action execution (second scenario, desktop oracle throwing `msg`),
the `catch` block emits a single `error` whose content is the
classification of the message — quota markers first, then API-key markers,
else the generic text — followed by the trailing `done`, and stops. -/
theorem C8_error_classification (model mexec : ℕ → Except String ModelResponse)
    (msg : String) (res : ℕ × ℕ) (msgs : List Message)
    (h1 : model 1 = Except.error msg)
    (h2 : mexec 1 = Except.ok (respOfParts
      [Part.functionCall ⟨some "click_at",
        some (GeminiComputerAction.click_at 500 500)⟩])) :
    events (stream model desktop0 neverAborted res msgs) =
      [SSEEvent.error (geminiErrorContent msg), SSEEvent.done none] ∧
    events (stream mexec (fun _ => some msg) neverAborted res msgs) =
      [SSEEvent.action (GeminiComputerAction.click_at 500 500),
        SSEEvent.error (geminiErrorContent msg), SSEEvent.done none] ∧
    (hasQuotaMarker msg = true → geminiErrorContent msg = quotaContent) ∧
    (hasQuotaMarker msg = false → hasKeyMarker msg = true →
      geminiErrorContent msg = authContent) ∧
    (hasQuotaMarker msg = false → hasKeyMarker msg = false →
      geminiErrorContent msg = "Error: " ++ msg) := by
  have h1' : model (0 + 1) = Except.error msg := h1
  have h2' : mexec (0 + 1) = Except.ok (respOfParts
      [Part.functionCall ⟨some "click_at",
        some (GeminiComputerAction.click_at 500 500)⟩]) := h2
  refine ⟨?_, ?_, ?_, ?_, ?_⟩
  · have hL : streamLoop model desktop0 neverAborted res 50 0 "about:blank" =
        ([Step.modelCall (0 + 1)], LoopExit.thrown msg) := by
      show streamLoop model desktop0 neverAborted res (49 + 1) 0
        "about:blank" = _
      simp only [streamLoop, neverAborted, Bool.false_eq_true, if_false, h1']
    have hstream : stream model desktop0 neverAborted res msgs =
        initSteps msgs ++ [Step.modelCall (0 + 1)] ++
          [Step.emit (SSEEvent.error (geminiErrorContent msg)),
            Step.emit (SSEEvent.done none)] := by
      simp only [stream, MAX_ITERATIONS, hL]
    rw [hstream, events_append, events_append, events_initSteps]
    rfl
  · have hPC : processCalls (fun _ => some msg) res
        [(⟨some "click_at",
          some (GeminiComputerAction.click_at 500 500)⟩ : RawFunctionCall)]
        "about:blank" =
        ([Step.emit (SSEEvent.action (GeminiComputerAction.click_at 500 500))],
          [], "about:blank", some msg) := by
      have hmal : ((⟨some "click_at",
          some (GeminiComputerAction.click_at 500 500)⟩ :
            RawFunctionCall)).malformed = false := by decide
      simp only [processCalls, hmal, Bool.false_eq_true, if_false,
        Option.getD_some, execAction, runCalls]
    have hL : streamLoop mexec (fun _ => some msg) neverAborted res 50 0
        "about:blank" =
        (Step.modelCall (0 + 1) ::
          (reasoningStepsOf [Part.functionCall ⟨some "click_at",
            some (GeminiComputerAction.click_at 500 500)⟩] ++
            [Step.emit (SSEEvent.action
              (GeminiComputerAction.click_at 500 500))]),
          LoopExit.thrown msg) := by
      show streamLoop mexec (fun _ => some msg) neverAborted res (49 + 1) 0
        "about:blank" = _
      simp only [streamLoop, neverAborted, Bool.false_eq_true, if_false, h2',
        respOfParts, List.filterMap, Part.callOf, hPC]
    have hstream : stream mexec (fun _ => some msg) neverAborted res msgs =
        initSteps msgs ++
          (Step.modelCall (0 + 1) ::
            (reasoningStepsOf [Part.functionCall ⟨some "click_at",
              some (GeminiComputerAction.click_at 500 500)⟩] ++
              [Step.emit (SSEEvent.action
                (GeminiComputerAction.click_at 500 500))])) ++
          [Step.emit (SSEEvent.error (geminiErrorContent msg)),
            Step.emit (SSEEvent.done none)] := by
      simp only [stream, MAX_ITERATIONS, hL]
    rw [hstream, events_append, events_append, events_initSteps]
    rfl
  · intro hq
    rw [geminiErrorContent, if_pos hq]
  · intro hq hk
    rw [geminiErrorContent, if_neg (by simp [hq]), if_pos hk]
  · intro hq hk
    rw [geminiErrorContent, if_neg (by simp [hq]), if_neg (by simp [hk])]

/-- Claim C8 witness: a thrown message containing `RESOURCE_EXHAUSTED`
classifies as the quota error, in both the model-call-throw and the
execution-throw scenarios. -/
theorem C8_error_classification_witness :
    events (stream (throwingModel "RESOURCE_EXHAUSTED") desktop0 neverAborted
        (1920, 1080) []) =
      [SSEEvent.error quotaContent, SSEEvent.done none] ∧
    events (stream clickModel (fun _ => some "RESOURCE_EXHAUSTED")
        neverAborted (1920, 1080) []) =
      [SSEEvent.action (GeminiComputerAction.click_at 500 500),
        SSEEvent.error quotaContent, SSEEvent.done none] := by
  have h := C8_error_classification (throwingModel "RESOURCE_EXHAUSTED")
    clickModel "RESOURCE_EXHAUSTED" (1920, 1080) [] rfl rfl
  have hq : geminiErrorContent "RESOURCE_EXHAUSTED" = quotaContent :=
    h.2.2.1 (by decide)
  exact ⟨by rw [← hq]; exact h.1, by rw [← hq]; exact h.2.1⟩

end Surf

namespace Surf

/-- Claim C4: when one model turn proposes three actions (none of them the
self-sleeping `wait_5_seconds`), the engine executes all three and then
sleeps exactly once, for the maximum of the three settle delays — the
single sleep of the whole run sits after all three `action`/
`action_completed` pairs. -/
theorem C4_settle_max (a b c : GeminiComputerAction)
    (model : ℕ → Except String ModelResponse) (res : ℕ × ℕ)
    (msgs : List Message)
    (ha : a ≠ GeminiComputerAction.wait_5_seconds)
    (hb : b ≠ GeminiComputerAction.wait_5_seconds)
    (hc : c ≠ GeminiComputerAction.wait_5_seconds)
    (hm1 : model 1 = Except.ok (respOfParts
      [Part.functionCall ⟨some "a", some a⟩,
        Part.functionCall ⟨some "b", some b⟩,
        Part.functionCall ⟨some "c", some c⟩]))
    (hm2 : model 2 = Except.ok ⟨[]⟩) :
    ∃ pre post, stream model desktop0 neverAborted res msgs =
        pre ++ [Step.sleep (Nat.max (Nat.max (getActionSettleDelay a)
          (getActionSettleDelay b)) (getActionSettleDelay c))] ++ post ∧
      events pre = [SSEEvent.action a, SSEEvent.action_completed,
        SSEEvent.action b, SSEEvent.action_completed,
        SSEEvent.action c, SSEEvent.action_completed] ∧
      sleepsOf (stream model desktop0 neverAborted res msgs) =
        [Nat.max (Nat.max (getActionSettleDelay a) (getActionSettleDelay b))
          (getActionSettleDelay c)] := by
  obtain ⟨sa, ua, hA, hAsh, hAsl⟩ := execAction_desktop0_spec res "about:blank" a
  obtain ⟨sb, ub, hB, hBsh, hBsl⟩ := execAction_desktop0_spec res ua b
  obtain ⟨sc, uc, hC, hCsh, hCsl⟩ := execAction_desktop0_spec res ub c
  have hm1' : model (0 + 1) = Except.ok (respOfParts
      [Part.functionCall ⟨some "a", some a⟩,
        Part.functionCall ⟨some "b", some b⟩,
        Part.functionCall ⟨some "c", some c⟩]) := hm1
  have hmalA : ((⟨some "a", some a⟩ : RawFunctionCall)).malformed = false := by
    simp [RawFunctionCall.malformed, nameFalsy]
  have hmalB : ((⟨some "b", some b⟩ : RawFunctionCall)).malformed = false := by
    simp [RawFunctionCall.malformed, nameFalsy]
  have hmalC : ((⟨some "c", some c⟩ : RawFunctionCall)).malformed = false := by
    simp [RawFunctionCall.malformed, nameFalsy]
  have hPC : processCalls desktop0 res
      [⟨some "a", some a⟩, ⟨some "b", some b⟩, ⟨some "c", some c⟩]
      "about:blank" =
      (Step.emit (SSEEvent.action a) ::
        (sa ++ Step.emit SSEEvent.action_completed ::
          (Step.emit (SSEEvent.action b) ::
            (sb ++ Step.emit SSEEvent.action_completed ::
              (Step.emit (SSEEvent.action c) ::
                (sc ++ [Step.emit SSEEvent.action_completed]))))),
        [a, b, c], uc, none) := by
    simp only [processCalls, hmalA, hmalB, hmalC, Bool.false_eq_true,
      if_false, Option.getD_some, hA, hB, hC]
  set M := Nat.max (Nat.max (getActionSettleDelay a) (getActionSettleDelay b))
    (getActionSettleDelay c) with hM
  have hfold : ([a, b, c].map getActionSettleDelay).foldl Nat.max 0 = M := by
    simp only [List.map_cons, List.map_nil, List.foldl_cons, List.foldl_nil,
      Nat.zero_max, hM]
  have hpost : postStepsOf
      [Part.functionCall ⟨some "a", some a⟩,
        Part.functionCall ⟨some "b", some b⟩,
        Part.functionCall ⟨some "c", some c⟩]
      [⟨some "a", some a⟩, ⟨some "b", some b⟩, ⟨some "c", some c⟩]
      [a, b, c] =
      Step.sleep M ::
        [Step.screenshot,
          Step.pushContent (ContentItem.modelContent
            [Part.functionCall ⟨some "a", some a⟩,
              Part.functionCall ⟨some "b", some b⟩,
              Part.functionCall ⟨some "c", some c⟩]),
          Step.pushContent (ContentItem.functionResponses
            [some "a", some "b", some "c"])] := by
    simp only [postStepsOf, List.isEmpty_cons, Bool.false_eq_true, if_false,
      hfold]
    rfl
  have hL2 : streamLoop model desktop0 neverAborted res 49 (0 + 1) uc =
      ([Step.modelCall (0 + 1 + 1),
        Step.emit (SSEEvent.done (some "No response from model"))],
        LoopExit.normal (0 + 1 + 1)) := by
    have hm2' : model (0 + 1 + 1) = Except.ok (⟨[]⟩ : ModelResponse) := hm2
    show streamLoop model desktop0 neverAborted res (48 + 1) (0 + 1) uc = _
    simp only [streamLoop, neverAborted, Bool.false_eq_true, if_false, hm2']
  have hL1 : streamLoop model desktop0 neverAborted res 50 0 "about:blank" =
      (Step.modelCall (0 + 1) ::
        (reasoningStepsOf
            [Part.functionCall ⟨some "a", some a⟩,
              Part.functionCall ⟨some "b", some b⟩,
              Part.functionCall ⟨some "c", some c⟩] ++
          (Step.emit (SSEEvent.action a) ::
            (sa ++ Step.emit SSEEvent.action_completed ::
              (Step.emit (SSEEvent.action b) ::
                (sb ++ Step.emit SSEEvent.action_completed ::
                  (Step.emit (SSEEvent.action c) ::
                    (sc ++ [Step.emit SSEEvent.action_completed])))))) ++
          postStepsOf
            [Part.functionCall ⟨some "a", some a⟩,
              Part.functionCall ⟨some "b", some b⟩,
              Part.functionCall ⟨some "c", some c⟩]
            [⟨some "a", some a⟩, ⟨some "b", some b⟩, ⟨some "c", some c⟩]
            [a, b, c] ++
          [Step.modelCall (0 + 1 + 1),
            Step.emit (SSEEvent.done (some "No response from model"))]),
        LoopExit.normal (0 + 1 + 1)) := by
    show streamLoop model desktop0 neverAborted res (49 + 1) 0
      "about:blank" = _
    rw [streamLoop]
    simp only [neverAborted, Bool.false_eq_true, if_false, hm1',
      respOfParts, List.filterMap_cons, Part.callOf, List.filterMap_nil, hPC,
      hL2]
  have hstream : stream model desktop0 neverAborted res msgs =
      (initSteps msgs ++
        Step.modelCall (0 + 1) ::
          (reasoningStepsOf
              [Part.functionCall ⟨some "a", some a⟩,
                Part.functionCall ⟨some "b", some b⟩,
                Part.functionCall ⟨some "c", some c⟩] ++
            (Step.emit (SSEEvent.action a) ::
              (sa ++ Step.emit SSEEvent.action_completed ::
                (Step.emit (SSEEvent.action b) ::
                  (sb ++ Step.emit SSEEvent.action_completed ::
                    (Step.emit (SSEEvent.action c) ::
                      (sc ++ [Step.emit SSEEvent.action_completed])))))))) ++
        [Step.sleep M] ++
        ([Step.screenshot,
          Step.pushContent (ContentItem.modelContent
            [Part.functionCall ⟨some "a", some a⟩,
              Part.functionCall ⟨some "b", some b⟩,
              Part.functionCall ⟨some "c", some c⟩]),
          Step.pushContent (ContentItem.functionResponses
            [some "a", some "b", some "c"])] ++
          [Step.modelCall (0 + 1 + 1),
            Step.emit (SSEEvent.done (some "No response from model"))] ++
          [Step.emit (SSEEvent.done none)]) := by
    simp only [stream, MAX_ITERATIONS, hL1, hpost]
    norm_num [List.append_assoc]
  have hsaE : List.filterMap Step.emittedEvent sa = [] :=
    List.filterMap_eq_nil_iff.mpr (fun s hs => (hAsh s hs).1)
  have hsbE : List.filterMap Step.emittedEvent sb = [] :=
    List.filterMap_eq_nil_iff.mpr (fun s hs => (hBsh s hs).1)
  have hscE : List.filterMap Step.emittedEvent sc = [] :=
    List.filterMap_eq_nil_iff.mpr (fun s hs => (hCsh s hs).1)
  have hsaS : List.filterMap Step.sleepMs sa = [] :=
    List.filterMap_eq_nil_iff.mpr (fun s hs => hAsl ha s hs)
  have hsbS : List.filterMap Step.sleepMs sb = [] :=
    List.filterMap_eq_nil_iff.mpr (fun s hs => hBsl hb s hs)
  have hscS : List.filterMap Step.sleepMs sc = [] :=
    List.filterMap_eq_nil_iff.mpr (fun s hs => hCsl hc s hs)
  have hInitE : List.filterMap Step.emittedEvent (initSteps msgs) = [] :=
    events_initSteps msgs
  have hInitS : List.filterMap Step.sleepMs (initSteps msgs) = [] :=
    sleepsOf_initSteps msgs
  have hRS : reasoningStepsOf
      [Part.functionCall ⟨some "a", some a⟩,
        Part.functionCall ⟨some "b", some b⟩,
        Part.functionCall ⟨some "c", some c⟩] = [] := rfl
  refine ⟨_, _, hstream, ?_, ?_⟩
  · simp only [events, hRS, List.filterMap_append, List.filterMap_cons,
      List.filterMap_nil, Step.emittedEvent, hsaE, hsbE, hscE, hInitE,
      List.nil_append, List.append_nil]
  · rw [hstream]
    simp only [sleepsOf, hRS, List.filterMap_append, List.filterMap_cons,
      List.filterMap_nil, Step.sleepMs, hsaS, hsbS, hscS, hInitS,
      List.nil_append, List.append_nil]

end Surf

namespace Surf

/-- Claim C4 witness: executed delays 400 (`click_at`), 3000 (`type_text_at`
with Enter) and 200 (`scroll_at`) in one turn produce a single 3000 ms
wait. -/
theorem C4_settle_max_witness :
    sleepsOf (stream (twoStepModel (Except.ok (respOfParts
        [Part.functionCall ⟨some "a",
          some (GeminiComputerAction.click_at 100 100)⟩,
          Part.functionCall ⟨some "b",
            some (GeminiComputerAction.type_text_at 10 10 "hi" (some true)
              none)⟩,
          Part.functionCall ⟨some "c",
            some (GeminiComputerAction.scroll_at 1 1 Direction.down none)⟩]))
        (Except.ok ⟨[]⟩)) desktop0 neverAborted (1920, 1080) []) = [3000] := by
  obtain ⟨pre, post, h1, h2, h3⟩ :=
    C4_settle_max (GeminiComputerAction.click_at 100 100)
      (GeminiComputerAction.type_text_at 10 10 "hi" (some true) none)
      (GeminiComputerAction.scroll_at 1 1 Direction.down none)
      (twoStepModel (Except.ok (respOfParts
        [Part.functionCall ⟨some "a",
          some (GeminiComputerAction.click_at 100 100)⟩,
          Part.functionCall ⟨some "b",
            some (GeminiComputerAction.type_text_at 10 10 "hi" (some true)
              none)⟩,
          Part.functionCall ⟨some "c",
            some (GeminiComputerAction.scroll_at 1 1 Direction.down none)⟩]))
        (Except.ok ⟨[]⟩)) (1920, 1080) []
      (by decide) (by decide) (by decide) rfl rfl
  simpa using h3

end Surf

namespace Surf

/-- Claim C10: a function-call part with a missing name is skipped — no
`action`/`action_completed` events, no execution, and the iteration
continues (the conversation turns are appended and the next model call
happens) — yet the function-response user turn still carries an entry for
it, with its undefined name, alongside the executed call's entry. -/
theorem C10_malformed_call (a b : GeminiComputerAction) (nm : String)
    (model : ℕ → Except String ModelResponse) (res : ℕ × ℕ)
    (msgs : List Message) (hnm : nm ≠ "")
    (hm1 : model 1 = Except.ok (respOfParts
      [Part.functionCall ⟨none, some a⟩,
        Part.functionCall ⟨some nm, some b⟩]))
    (hm2 : model 2 = Except.ok ⟨[]⟩) :
    events (stream model desktop0 neverAborted res msgs) =
      [SSEEvent.action b, SSEEvent.action_completed,
        SSEEvent.done (some "No response from model"), SSEEvent.done none] ∧
    Step.pushContent (ContentItem.functionResponses [none, some nm]) ∈
      stream model desktop0 neverAborted res msgs ∧
    remoteCallsOf (stream model desktop0 neverAborted res msgs) =
      remoteCallsOf (execAction desktop0 res "about:blank" b).1 ∧
    modelCallCount (stream model desktop0 neverAborted res msgs) = 2 := by
  obtain ⟨sb, ub, hB, hBsh, _⟩ := execAction_desktop0_spec res "about:blank" b
  have hm1' : model (0 + 1) = Except.ok (respOfParts
      [Part.functionCall ⟨none, some a⟩,
        Part.functionCall ⟨some nm, some b⟩]) := hm1
  have hmal1 : ((⟨none, some a⟩ : RawFunctionCall)).malformed = true := rfl
  have hmal2 : ((⟨some nm, some b⟩ : RawFunctionCall)).malformed = false := by
    simp [RawFunctionCall.malformed, nameFalsy, hnm]
  have hPC : processCalls desktop0 res
      [⟨none, some a⟩, ⟨some nm, some b⟩] "about:blank" =
      (Step.warn :: Step.emit (SSEEvent.action b) ::
        (sb ++ [Step.emit SSEEvent.action_completed]), [b], ub, none) := by
    simp only [processCalls, hmal1, hmal2, eq_self_iff_true, if_true,
      Bool.false_eq_true, if_false, Option.getD_some, hB]
  have hL2 : streamLoop model desktop0 neverAborted res 49 (0 + 1) ub =
      ([Step.modelCall (0 + 1 + 1),
        Step.emit (SSEEvent.done (some "No response from model"))],
        LoopExit.normal (0 + 1 + 1)) := by
    have hm2' : model (0 + 1 + 1) = Except.ok (⟨[]⟩ : ModelResponse) := hm2
    show streamLoop model desktop0 neverAborted res (48 + 1) (0 + 1) ub = _
    simp only [streamLoop, neverAborted, Bool.false_eq_true, if_false, hm2']
  have hfold : ([b].map getActionSettleDelay).foldl Nat.max 0 =
      getActionSettleDelay b := by
    simp only [List.map_cons, List.map_nil, List.foldl_cons, List.foldl_nil,
      Nat.zero_max]
  have hpost : postStepsOf
      [Part.functionCall ⟨none, some a⟩, Part.functionCall ⟨some nm, some b⟩]
      [⟨none, some a⟩, ⟨some nm, some b⟩] [b] =
      Step.sleep (getActionSettleDelay b) ::
        [Step.screenshot,
          Step.pushContent (ContentItem.modelContent
            [Part.functionCall ⟨none, some a⟩,
              Part.functionCall ⟨some nm, some b⟩]),
          Step.pushContent (ContentItem.functionResponses [none, some nm])] := by
    simp only [postStepsOf, List.isEmpty_cons, Bool.false_eq_true, if_false,
      hfold]
    rfl
  have hL1 : streamLoop model desktop0 neverAborted res 50 0 "about:blank" =
      (Step.modelCall (0 + 1) ::
        (reasoningStepsOf
            [Part.functionCall ⟨none, some a⟩,
              Part.functionCall ⟨some nm, some b⟩] ++
          (Step.warn :: Step.emit (SSEEvent.action b) ::
            (sb ++ [Step.emit SSEEvent.action_completed])) ++
          postStepsOf
            [Part.functionCall ⟨none, some a⟩,
              Part.functionCall ⟨some nm, some b⟩]
            [⟨none, some a⟩, ⟨some nm, some b⟩] [b] ++
          [Step.modelCall (0 + 1 + 1),
            Step.emit (SSEEvent.done (some "No response from model"))]),
        LoopExit.normal (0 + 1 + 1)) := by
    show streamLoop model desktop0 neverAborted res (49 + 1) 0
      "about:blank" = _
    rw [streamLoop]
    simp only [neverAborted, Bool.false_eq_true, if_false, hm1', respOfParts,
      List.filterMap_cons, Part.callOf, List.filterMap_nil, hPC, hL2]
  have hstream : stream model desktop0 neverAborted res msgs =
      initSteps msgs ++
        Step.modelCall (0 + 1) ::
          (reasoningStepsOf
              [Part.functionCall ⟨none, some a⟩,
                Part.functionCall ⟨some nm, some b⟩] ++
            (Step.warn :: Step.emit (SSEEvent.action b) ::
              (sb ++ [Step.emit SSEEvent.action_completed])) ++
            (Step.sleep (getActionSettleDelay b) ::
              [Step.screenshot,
                Step.pushContent (ContentItem.modelContent
                  [Part.functionCall ⟨none, some a⟩,
                    Part.functionCall ⟨some nm, some b⟩]),
                Step.pushContent
                  (ContentItem.functionResponses [none, some nm])]) ++
            [Step.modelCall (0 + 1 + 1),
              Step.emit (SSEEvent.done (some "No response from model"))]) ++
        [Step.emit (SSEEvent.done none)] := by
    simp only [stream, MAX_ITERATIONS, hL1, hpost]
    norm_num [List.append_assoc]
  have hRS : reasoningStepsOf
      [Part.functionCall ⟨none, some a⟩,
        Part.functionCall ⟨some nm, some b⟩] = [] := rfl
  have hsbE : List.filterMap Step.emittedEvent sb = [] :=
    List.filterMap_eq_nil_iff.mpr (fun s hs => (hBsh s hs).1)
  have hsbR : List.filterMap Step.remoteOf sb =
      List.filterMap Step.remoteOf sb := rfl
  have hsbM : List.filter Step.isModelCall sb = [] := by
    rw [List.filter_eq_nil_iff]
    intro s hs
    simp [(hBsh s hs).2.1]
  have hInitE : List.filterMap Step.emittedEvent (initSteps msgs) = [] :=
    events_initSteps msgs
  have hInitR : List.filterMap Step.remoteOf (initSteps msgs) = [] :=
    remoteCallsOf_initSteps msgs
  refine ⟨?_, ?_, ?_, ?_⟩
  · rw [hstream]
    simp only [events, hRS, List.filterMap_append, List.filterMap_cons,
      List.filterMap_nil, Step.emittedEvent, hsbE, hInitE, List.nil_append,
      List.append_nil]
    rfl
  · rw [hstream]
    simp
  · rw [hstream, hB]
    simp only [remoteCallsOf, hRS, List.filterMap_append, List.filterMap_cons,
      List.filterMap_nil, Step.remoteOf, hInitR, List.nil_append,
      List.append_nil]
  · rw [hstream]
    have h0 : modelCallCount (initSteps msgs) = 0 := modelCallCount_initSteps msgs
    simp only [modelCallCount, List.filter_append, List.filter_cons, hRS,
      Step.isModelCall, hsbM, List.filter_nil] at h0 ⊢
    simp [h0]

end Surf

namespace Surf

/-- Claim C10 witness: a name-less call alongside a valid `click_at`. -/
theorem C10_malformed_call_witness :
    events (stream (twoStepModel (Except.ok (respOfParts
        [Part.functionCall ⟨none, some (GeminiComputerAction.click_at 1 2)⟩,
          Part.functionCall ⟨some "click_at",
            some (GeminiComputerAction.click_at 500 500)⟩]))
        (Except.ok ⟨[]⟩)) desktop0 neverAborted (1920, 1080) []) =
      [SSEEvent.action (GeminiComputerAction.click_at 500 500),
        SSEEvent.action_completed,
        SSEEvent.done (some "No response from model"), SSEEvent.done none] ∧
    Step.pushContent (ContentItem.functionResponses [none, some "click_at"]) ∈
      stream (twoStepModel (Except.ok (respOfParts
        [Part.functionCall ⟨none, some (GeminiComputerAction.click_at 1 2)⟩,
          Part.functionCall ⟨some "click_at",
            some (GeminiComputerAction.click_at 500 500)⟩]))
        (Except.ok ⟨[]⟩)) desktop0 neverAborted (1920, 1080) [] ∧
    remoteCallsOf (stream (twoStepModel (Except.ok (respOfParts
        [Part.functionCall ⟨none, some (GeminiComputerAction.click_at 1 2)⟩,
          Part.functionCall ⟨some "click_at",
            some (GeminiComputerAction.click_at 500 500)⟩]))
        (Except.ok ⟨[]⟩)) desktop0 neverAborted (1920, 1080) []) =
      remoteCallsOf (execAction desktop0 (1920, 1080) "about:blank"
        (GeminiComputerAction.click_at 500 500)).1 ∧
    modelCallCount (stream (twoStepModel (Except.ok (respOfParts
        [Part.functionCall ⟨none, some (GeminiComputerAction.click_at 1 2)⟩,
          Part.functionCall ⟨some "click_at",
            some (GeminiComputerAction.click_at 500 500)⟩]))
        (Except.ok ⟨[]⟩)) desktop0 neverAborted (1920, 1080) []) = 2 :=
  C10_malformed_call (GeminiComputerAction.click_at 1 2)
    (GeminiComputerAction.click_at 500 500) "click_at"
    (twoStepModel (Except.ok (respOfParts
      [Part.functionCall ⟨none, some (GeminiComputerAction.click_at 1 2)⟩,
        Part.functionCall ⟨some "click_at",
          some (GeminiComputerAction.click_at 500 500)⟩]))
      (Except.ok ⟨[]⟩)) (1920, 1080) [] (by decide) rfl rfl

end Surf
